import Mathlib

/-!
Shallow embedding of the `credits-delegation` CosmWasm contract
(`src/state.rs`, `src/contract/exec.rs`, `src/contract/query.rs`,
`src/contract/init.rs`) and proofs of the specified properties.

Modelling conventions:
* An address (`cosmwasm_std::Addr`) is a string; `deps.api.addr_validate`
  is an external capability, modelled by a boolean parameter
  `validate : String → Bool` (validation is a pure syntactic check and
  canonicalization is the identity, as in the mock API used by the tests).
* The `cw_storage_plus::Map` stores are association lists;
  `may_load` is `alookup`, `save` is `aset` (overwrite or append),
  `remove` is `aremove`.
* `u128` values are `Nat`; the unchecked `+` of the Rust source is
  modelled as addition modulo `2 ^ 128` (`wrap`), and the `-` in
  `execute_spend_from` happens only under the guard `amount ≤ balance`,
  so it is exact `Nat` subtraction.
* `Result<Response, ContractError>` is `Except ContractError (Storage × Response)`
  with `Response` the list of emitted attributes; the storage is threaded
  explicitly.
-/

namespace CreditsDelegation

/-- Addresses (`cosmwasm_std::Addr`) are opaque strings. -/
abbrev Addr := String

/-- `2 ^ 128`, the modulus of `u128` arithmetic. -/
def U128LIM : Nat := 2 ^ 128

/-- Unchecked `u128` addition result: reduction modulo `2 ^ 128`. -/
def wrap (n : Nat) : Nat := n % U128LIM

/-- A native coin attached to a message (`cosmwasm_std::Coin`):
a denomination and a `Uint128` amount. -/
structure Coin where
  denom : String
  amount : Nat
deriving DecidableEq, Repr

/-- `cosmwasm_std::MessageInfo`: the (already verified) sender and the
attached funds. -/
structure MessageInfo where
  sender : Addr
  funds : List Coin
deriving DecidableEq, Repr

/-- Association-list lookup: first entry with the given key
(`Map::may_load`). -/
def alookup {α β : Type} [DecidableEq α] : List (α × β) → α → Option β
  | [], _ => none
  | (k2, v) :: t, k => if k2 = k then some v else alookup t k

/-- Association-list overwrite-or-append (`Map::save`). -/
def aset {α β : Type} [DecidableEq α] : List (α × β) → α → β → List (α × β)
  | [], k, v => [(k, v)]
  | (k2, v2) :: t, k, v => if k2 = k then (k, v) :: t else (k2, v2) :: aset t k v

/-- Association-list key removal (`Map::remove`). -/
def aremove {α β : Type} [DecidableEq α] : List (α × β) → α → List (α × β)
  | [], _ => []
  | (k2, v2) :: t, k => if k2 = k then aremove t k else (k2, v2) :: aremove t k

/-- The contract storage (`src/state.rs`): the `ADMIN` and `DENOM` items
and the `BALANCES` and `AUTHORIZED_SPENDERS` maps. -/
structure Storage where
  admin : Addr
  denom : String
  balances : List (Addr × Nat)
  grants : List ((Addr × Addr) × Bool)
deriving DecidableEq, Repr

/-- `BALANCES.may_load(storage, a)?.unwrap_or(0)`. -/
def balOf (st : Storage) (a : Addr) : Nat := (alookup st.balances a).getD 0

/-- `AUTHORIZED_SPENDERS.may_load(storage, (o, s))?.unwrap_or(false)`. -/
def grantOf (st : Storage) (o s : Addr) : Bool := (alookup st.grants (o, s)).getD false

/-- `cosmwasm_std::StdError`, restricted to the variants this contract
produces: generic errors and the address-validation failure. -/
inductive StdError where
  | genericErr (msg : String)
  | invalidAddr (input : String)
deriving DecidableEq, Repr

/-- `ContractError` (`src/error.rs`). -/
inductive ContractError where
  | Unauthorized
  | NotImplemented
  | Std (e : StdError)
deriving DecidableEq, Repr

/-- An emitted response: the list of `add_attribute` key/value pairs. -/
abbrev Response := List (String × String)

/-- `deps.api.addr_validate`: succeed with the canonical (identical)
address when the external validator accepts the string. -/
def addr_validate (validate : String → Bool) (s : String) : Except ContractError Addr :=
  if validate s then .ok s else .error (.Std (.invalidAddr s))

/-- `Except.isOk` (avoiding a dependence on the library's helper). -/
def exOk {ε α : Type} : Except ε α → Bool
  | .ok _ => true
  | .error _ => false

/-- `one_native_token` (`exec.rs` lines 189–197): requires
`info.funds.len() == 1` and returns `info.funds[0].amount.u128()`.
Note: the denomination is NOT inspected. -/
def one_native_token (info : MessageInfo) : Except ContractError Nat :=
  if info.funds.length ≠ 1 then
    .error (.Std (.genericErr "Must send exactly one native token"))
  else
    .ok ((info.funds.headD ⟨"", 0⟩).amount)

/-- `execute_deposit` (`exec.rs` lines 49–63). -/
def execute_deposit (st : Storage) (info : MessageInfo) :
    Except ContractError (Storage × Response) := do
  let amount ← one_native_token info
  let sender := info.sender
  let prev := (alookup st.balances sender).getD 0
  let st2 : Storage := { st with balances := aset st.balances sender (wrap (prev + amount)) }
  return (st2, [("action", "deposit"), ("from", sender)])

/-- `execute_authorize_spender` (`exec.rs` lines 77–91). -/
def execute_authorize_spender (validate : String → Bool) (st : Storage)
    (info : MessageInfo) (spender : String) :
    Except ContractError (Storage × Response) := do
  let owner := info.sender
  let spender_addr ← addr_validate validate spender
  let st2 : Storage := { st with grants := aset st.grants (owner, spender_addr) true }
  return (st2, [("action", "authorize_spender"), ("owner", owner), ("spender", spender_addr)])

/-- `execute_revoke_spender` (`exec.rs` lines 105–119). -/
def execute_revoke_spender (validate : String → Bool) (st : Storage)
    (info : MessageInfo) (spender : String) :
    Except ContractError (Storage × Response) := do
  let owner := info.sender
  let spender_addr ← addr_validate validate spender
  let st2 : Storage := { st with grants := aremove st.grants (owner, spender_addr) }
  return (st2, [("action", "revoke_spender"), ("owner", owner), ("spender", spender_addr)])

/-- `execute_spend_from` (`exec.rs` lines 138–177). -/
def execute_spend_from (validate : String → Bool) (st : Storage)
    (info : MessageInfo) (owner : String) (amount : Nat) :
    Except ContractError (Storage × Response) := do
  let spender := info.sender
  let owner_addr ← addr_validate validate owner
  let is_owner := spender = owner_addr
  let is_authorized := (alookup st.grants (owner_addr, spender)).getD false
  if ¬ is_owner ∧ ¬ (is_authorized = true) then
    .error .Unauthorized
  else
    let balance := (alookup st.balances owner_addr).getD 0
    if balance < amount then
      .error (.Std (.genericErr "Insufficient balance"))
    else
      let balance2 := balance - amount
      let st2 : Storage := { st with balances := aset st.balances owner_addr balance2 }
      let prev := (alookup st2.balances spender).getD 0
      let st3 : Storage := { st2 with balances := aset st2.balances spender (wrap (prev + amount)) }
      return (st3, [("action", "spend_from"), ("owner", owner_addr),
                    ("spender", spender), ("amount", toString amount)])

/-- `ExecuteMsg` (`src/msg/exec.rs`). -/
inductive ExecuteMsg where
  | Deposit
  | AuthorizeSpender (spender : String)
  | RevokeSpender (spender : String)
  | SpendFrom (owner : String) (amount : Nat)
deriving DecidableEq, Repr

/-- `execute` (`exec.rs` lines 23–35): dispatch on the message. -/
def execute (validate : String → Bool) (st : Storage) (info : MessageInfo)
    (msg : ExecuteMsg) : Except ContractError (Storage × Response) :=
  match msg with
  | .Deposit => execute_deposit st info
  | .AuthorizeSpender spender => execute_authorize_spender validate st info spender
  | .RevokeSpender spender => execute_revoke_spender validate st info spender
  | .SpendFrom owner amount => execute_spend_from validate st info owner amount

/-- `query_balance` (`query.rs` lines 44–53), returning the balance
directly rather than JSON. -/
def query_balance (validate : String → Bool) (st : Storage) (owner : String) :
    Except ContractError Nat := do
  let owner_addr ← addr_validate validate owner
  return (alookup st.balances owner_addr).getD 0

/-- `query_is_authorized` (`query.rs` lines 67–79), returning the flag
directly rather than JSON. -/
def query_is_authorized (validate : String → Bool) (st : Storage)
    (owner spender : String) : Except ContractError Bool := do
  let owner_addr ← addr_validate validate owner
  let spender_addr ← addr_validate validate spender
  return (alookup st.grants (owner_addr, spender_addr)).getD false

/-- `instantiate` (`src/contract/init.rs`): validate the admin, store the
admin and the accepted denomination over empty maps. -/
def instantiate (validate : String → Bool) (admin denom : String) :
    Except ContractError Storage := do
  let admin_addr ← addr_validate validate admin
  return { admin := admin_addr, denom := denom, balances := [], grants := [] }

/-- A step of a trace: the message metadata and the message. -/
abbrev Step := MessageInfo × ExecuteMsg

/-- One transition of the host: on success the new storage, on failure the
old storage (the host commits writes only on success; in this contract all
failures happen before any write anyway). Returns whether the step
succeeded. -/
def applyStep (validate : String → Bool) (st : Storage) (step : Step) :
    Storage × Bool :=
  match execute validate st step.1 step.2 with
  | .ok (st2, _) => (st2, true)
  | .error _ => (st, false)

/-- Run a trace of steps from a given storage. -/
def runFrom (validate : String → Bool) (st : Storage) (tr : List Step) : Storage :=
  tr.foldl (fun s step => (applyStep validate s step).1) st

/-- The storage right after instantiation: both maps empty. -/
def initStorage (admin denom : String) : Storage :=
  { admin := admin, denom := denom, balances := [], grants := [] }

/-- Run a trace from the freshly instantiated contract. -/
def run (validate : String → Bool) (admin denom : String) (tr : List Step) : Storage :=
  runFrom validate (initStorage admin denom) tr

/-! ### Association-list lemmas -/

/-- Sum of the stored values of an association list. -/
def asum {α : Type} (l : List (α × Nat)) : Nat := (l.map Prod.snd).sum

theorem alookup_aset_self {α β : Type} [DecidableEq α] (l : List (α × β)) (k : α) (v : β) :
    alookup (aset l k v) k = some v := by
  induction l with
  | nil => simp [aset, alookup]
  | cons p t ih =>
    obtain ⟨k2, v2⟩ := p
    by_cases h : k2 = k
    · simp [aset, h, alookup]
    · simp [aset, h, alookup, ih]

theorem alookup_aset_ne {α β : Type} [DecidableEq α] (l : List (α × β)) (k k' : α) (v : β)
    (h : k' ≠ k) : alookup (aset l k v) k' = alookup l k' := by
  induction l with
  | nil => simp [aset, alookup, Ne.symm h]
  | cons p t ih =>
    obtain ⟨k2, v2⟩ := p
    by_cases h2 : k2 = k
    · subst h2
      simp [aset, alookup, h, Ne.symm h]
    · by_cases h3 : k2 = k'
      · subst h3
        simp [aset, h2, alookup]
      · simp [aset, h2, alookup, h3, ih]

theorem alookup_aremove_self {α β : Type} [DecidableEq α] (l : List (α × β)) (k : α) :
    alookup (aremove l k) k = none := by
  induction l with
  | nil => simp [aremove, alookup]
  | cons p t ih =>
    obtain ⟨k2, v2⟩ := p
    by_cases h : k2 = k
    · simp [aremove, h, ih]
    · simp [aremove, h, alookup, ih]

theorem alookup_aremove_ne {α β : Type} [DecidableEq α] (l : List (α × β)) (k k' : α)
    (h : k' ≠ k) : alookup (aremove l k) k' = alookup l k' := by
  induction l with
  | nil => simp [aremove]
  | cons p t ih =>
    obtain ⟨k2, v2⟩ := p
    by_cases h2 : k2 = k
    · subst h2
      simp [aremove, alookup, Ne.symm h, ih]
    · simp [aremove, h2, alookup, ih]

theorem aremove_idem {α β : Type} [DecidableEq α] (l : List (α × β)) (k : α) :
    aremove (aremove l k) k = aremove l k := by
  induction l with
  | nil => simp [aremove]
  | cons p t ih =>
    obtain ⟨k2, v2⟩ := p
    by_cases h : k2 = k
    · simp [aremove, h, ih]
    · simp [aremove, h, ih]

theorem asum_aset {α : Type} [DecidableEq α] (l : List (α × Nat)) (k : α) (v : Nat) :
    asum (aset l k v) + (alookup l k).getD 0 = asum l + v := by
  induction l with
  | nil => simp [aset, asum, alookup]
  | cons p t ih =>
    obtain ⟨k2, v2⟩ := p
    by_cases h : k2 = k
    · simp [aset, h, asum, alookup]
      omega
    · simp only [aset, h, if_false, asum, List.map_cons, List.sum_cons, alookup]
      simp only [asum] at ih
      omega

/-! ### Branch characterizations of the four handlers -/

/-- The storage produced by a successful `execute_spend_from`:
debit the owner, then credit the spender from the already-debited map. -/
def spendState (st : Storage) (spender owner : Addr) (amount : Nat) : Storage :=
  let bal1 := aset st.balances owner (balOf st owner - amount)
  { st with balances := aset bal1 spender (wrap ((alookup bal1 spender).getD 0 + amount)) }

theorem deposit_err (st : Storage) (info : MessageInfo)
    (h : info.funds.length ≠ 1) :
    execute_deposit st info = .error (.Std (.genericErr "Must send exactly one native token")) := by
  simp [execute_deposit, one_native_token, h]

theorem deposit_ok (st : Storage) (info : MessageInfo) (c : Coin)
    (h : info.funds = [c]) :
    execute_deposit st info =
      .ok ({ st with balances := aset st.balances info.sender (wrap (balOf st info.sender + c.amount)) },
           [("action", "deposit"), ("from", info.sender)]) := by
  simp [execute_deposit, one_native_token, h, balOf]

theorem authorize_err (validate : String → Bool) (st : Storage) (info : MessageInfo)
    (spender : String) (h : validate spender = false) :
    execute_authorize_spender validate st info spender = .error (.Std (.invalidAddr spender)) := by
  simp [execute_authorize_spender, addr_validate, h]

theorem authorize_ok (validate : String → Bool) (st : Storage) (info : MessageInfo)
    (spender : String) (h : validate spender = true) :
    execute_authorize_spender validate st info spender =
      .ok ({ st with grants := aset st.grants (info.sender, spender) true },
           [("action", "authorize_spender"), ("owner", info.sender), ("spender", spender)]) := by
  simp [execute_authorize_spender, addr_validate, h]

theorem revoke_err (validate : String → Bool) (st : Storage) (info : MessageInfo)
    (spender : String) (h : validate spender = false) :
    execute_revoke_spender validate st info spender = .error (.Std (.invalidAddr spender)) := by
  simp [execute_revoke_spender, addr_validate, h]

theorem revoke_ok (validate : String → Bool) (st : Storage) (info : MessageInfo)
    (spender : String) (h : validate spender = true) :
    execute_revoke_spender validate st info spender =
      .ok ({ st with grants := aremove st.grants (info.sender, spender) },
           [("action", "revoke_spender"), ("owner", info.sender), ("spender", spender)]) := by
  simp [execute_revoke_spender, addr_validate, h]

theorem spend_from_invalid (validate : String → Bool) (st : Storage) (info : MessageInfo)
    (owner : String) (amount : Nat) (h : validate owner = false) :
    execute_spend_from validate st info owner amount = .error (.Std (.invalidAddr owner)) := by
  simp [execute_spend_from, addr_validate, h, Except.bind, bind, pure, Except.pure]

theorem spend_from_unauthorized (validate : String → Bool) (st : Storage) (info : MessageInfo)
    (owner : String) (amount : Nat) (hv : validate owner = true)
    (hno : info.sender ≠ owner) (hg : grantOf st owner info.sender = false) :
    execute_spend_from validate st info owner amount = .error .Unauthorized := by
  simp only [grantOf] at hg
  simp [execute_spend_from, addr_validate, hv, hno, hg, Except.bind, bind, pure, Except.pure]

theorem spend_from_insufficient (validate : String → Bool) (st : Storage) (info : MessageInfo)
    (owner : String) (amount : Nat) (hv : validate owner = true)
    (hauth : info.sender = owner ∨ grantOf st owner info.sender = true)
    (hlt : balOf st owner < amount) :
    execute_spend_from validate st info owner amount =
      .error (.Std (.genericErr "Insufficient balance")) := by
  simp only [grantOf] at hauth
  simp only [balOf] at hlt
  rcases hauth with hauth | hauth
  · simp [execute_spend_from, addr_validate, hv, hauth, hlt, Except.bind, bind, pure, Except.pure]
  · simp [execute_spend_from, addr_validate, hv, hauth, hlt, Except.bind, bind, pure, Except.pure]

theorem spend_from_ok (validate : String → Bool) (st : Storage) (info : MessageInfo)
    (owner : String) (amount : Nat) (hv : validate owner = true)
    (hauth : info.sender = owner ∨ grantOf st owner info.sender = true)
    (hge : amount ≤ balOf st owner) :
    execute_spend_from validate st info owner amount =
      .ok (spendState st info.sender owner amount,
           [("action", "spend_from"), ("owner", owner),
            ("spender", info.sender), ("amount", toString amount)]) := by
  simp only [grantOf] at hauth
  have hnlt : ¬ ((alookup st.balances owner).getD 0 < amount) := by
    simp only [balOf] at hge
    omega
  rcases hauth with hauth | hauth
  · simp [execute_spend_from, addr_validate, hv, hauth, hnlt, spendState, balOf, Except.bind, bind, pure, Except.pure]
  · simp [execute_spend_from, addr_validate, hv, hauth, hnlt, spendState, balOf, Except.bind, bind, pure, Except.pure]

/-! ### Effect of a single trace step on the stores -/

/-- `step` is a successful grant of the pair `(o, s)`: an
`AuthorizeSpender s` sent by `o` with a spender string that validates. -/
def grantOnStep (validate : String → Bool) (o s : Addr) (step : Step) : Bool :=
  match step.2 with
  | .AuthorizeSpender sp => decide (step.1.sender = o) && decide (sp = s) && validate sp
  | _ => false

/-- `step` is a successful revocation of the pair `(o, s)`. -/
def grantOffStep (validate : String → Bool) (o s : Addr) (step : Step) : Bool :=
  match step.2 with
  | .RevokeSpender sp => decide (step.1.sender = o) && decide (sp = s) && validate sp
  | _ => false

theorem applyStep_deposit (validate : String → Bool) (st : Storage) (info : MessageInfo) :
    (applyStep validate st (info, .Deposit)).1 = st ∨
      ∃ c, info.funds = [c] ∧
        (applyStep validate st (info, .Deposit)).1 =
          { st with balances := aset st.balances info.sender (wrap (balOf st info.sender + c.amount)) } := by
  rcases hf : info.funds with _ | ⟨c, _ | ⟨d, t⟩⟩
  · left
    have h := deposit_err st info (by simp [hf])
    simp [applyStep, execute, h]
  · right
    exact ⟨c, rfl, by simp [applyStep, execute, deposit_ok st info c hf]⟩
  · left
    have h := deposit_err st info (by simp [hf])
    simp [applyStep, execute, h]

theorem applyStep_authorize (validate : String → Bool) (st : Storage) (info : MessageInfo)
    (sp : String) :
    (applyStep validate st (info, .AuthorizeSpender sp)).1 =
      if validate sp = true then { st with grants := aset st.grants (info.sender, sp) true }
      else st := by
  by_cases h : validate sp = true
  · simp [applyStep, execute, authorize_ok validate st info sp h, h]
  · simp only [Bool.not_eq_true] at h
    simp [applyStep, execute, authorize_err validate st info sp h, h]

theorem applyStep_revoke (validate : String → Bool) (st : Storage) (info : MessageInfo)
    (sp : String) :
    (applyStep validate st (info, .RevokeSpender sp)).1 =
      if validate sp = true then { st with grants := aremove st.grants (info.sender, sp) }
      else st := by
  by_cases h : validate sp = true
  · simp [applyStep, execute, revoke_ok validate st info sp h, h]
  · simp only [Bool.not_eq_true] at h
    simp [applyStep, execute, revoke_err validate st info sp h, h]

theorem applyStep_spend (validate : String → Bool) (st : Storage) (info : MessageInfo)
    (owner : String) (amount : Nat) :
    (applyStep validate st (info, .SpendFrom owner amount)).1 = st ∨
      (validate owner = true ∧
        (info.sender = owner ∨ grantOf st owner info.sender = true) ∧
        amount ≤ balOf st owner ∧
        (applyStep validate st (info, .SpendFrom owner amount)).1 =
          spendState st info.sender owner amount) := by
  by_cases hv : validate owner = true
  · by_cases hauth : info.sender = owner ∨ grantOf st owner info.sender = true
    · by_cases hlt : balOf st owner < amount
      · left
        simp [applyStep, execute, spend_from_insufficient validate st info owner amount hv hauth hlt]
      · right
        refine ⟨hv, hauth, by omega, ?_⟩
        simp [applyStep, execute, spend_from_ok validate st info owner amount hv hauth (by omega)]
    · left
      push_neg at hauth
      obtain ⟨hno, hg⟩ := hauth
      have hg2 : grantOf st owner info.sender = false := by
        cases h2 : grantOf st owner info.sender
        · rfl
        · exact absurd h2 hg
      simp [applyStep, execute, spend_from_unauthorized validate st info owner amount hv hno hg2]
  · left
    simp only [Bool.not_eq_true] at hv
    simp [applyStep, execute, spend_from_invalid validate st info owner amount hv]

/-- The grant store is untouched by deposits and spends. -/
theorem applyStep_grants_deposit_spend (validate : String → Bool) (st : Storage)
    (step : Step) (hmsg : (∃ i, step = (i, .Deposit)) ∨ ∃ i o a, step = (i, .SpendFrom o a)) :
    ((applyStep validate st step).1).grants = st.grants := by
  rcases hmsg with ⟨i, rfl⟩ | ⟨i, o, a, rfl⟩
  · rcases applyStep_deposit validate st i with h | ⟨c, _, h⟩ <;> simp [h]
  · rcases applyStep_spend validate st i o a with h | ⟨_, _, _, h⟩ <;> simp [h, spendState]

/-- How one step changes the grant flag of a fixed pair `(o, s)`. -/
theorem grantOf_applyStep (validate : String → Bool) (st : Storage) (o s : Addr) (step : Step) :
    grantOf ((applyStep validate st step).1) o s =
      if grantOnStep validate o s step then true
      else if grantOffStep validate o s step then false
      else grantOf st o s := by
  obtain ⟨info, msg⟩ := step
  cases msg with
  | Deposit =>
    have h := applyStep_grants_deposit_spend validate st (info, .Deposit) (.inl ⟨info, rfl⟩)
    simp [grantOnStep, grantOffStep, grantOf, h]
  | SpendFrom owner amount =>
    have h := applyStep_grants_deposit_spend validate st (info, .SpendFrom owner amount)
      (.inr ⟨info, owner, amount, rfl⟩)
    simp [grantOnStep, grantOffStep, grantOf, h]
  | AuthorizeSpender sp =>
    rw [applyStep_authorize]
    by_cases hval : validate sp = true
    · by_cases hpair : info.sender = o ∧ sp = s
      · obtain ⟨h1, h2⟩ := hpair
        subst h1; subst h2
        simp [grantOnStep, hval, grantOf, alookup_aset_self]
      · have hne : (info.sender, sp) ≠ (o, s) := by
          intro hcontra
          exact hpair ⟨congrArg Prod.fst hcontra, congrArg Prod.snd hcontra⟩
        have hon : grantOnStep validate o s (info, .AuthorizeSpender sp) = false := by
          simp only [grantOnStep, Bool.and_eq_false_iff]
          rcases not_and_or.mp hpair with h | h
          · left; left; simpa using h
          · left; right; simpa using h
        simp [hon, grantOffStep, hval, grantOf,
          alookup_aset_ne st.grants (info.sender, sp) (o, s) true (Ne.symm hne)]
    · simp only [Bool.not_eq_true] at hval
      have hon : grantOnStep validate o s (info, .AuthorizeSpender sp) = false := by
        simp [grantOnStep, hval]
      simp [hon, grantOffStep, hval]
  | RevokeSpender sp =>
    rw [applyStep_revoke]
    by_cases hval : validate sp = true
    · by_cases hpair : info.sender = o ∧ sp = s
      · obtain ⟨h1, h2⟩ := hpair
        subst h1; subst h2
        simp [grantOnStep, grantOffStep, hval, grantOf, alookup_aremove_self]
      · have hne : (info.sender, sp) ≠ (o, s) := by
          intro hcontra
          exact hpair ⟨congrArg Prod.fst hcontra, congrArg Prod.snd hcontra⟩
        have hoff : grantOffStep validate o s (info, .RevokeSpender sp) = false := by
          simp only [grantOffStep, Bool.and_eq_false_iff]
          rcases not_and_or.mp hpair with h | h
          · left; left; simpa using h
          · left; right; simpa using h
        simp [grantOnStep, hoff, hval, grantOf,
          alookup_aremove_ne st.grants (info.sender, sp) (o, s) (Ne.symm hne)]
    · simp only [Bool.not_eq_true] at hval
      have hoff : grantOffStep validate o s (info, .RevokeSpender sp) = false := by
        simp [grantOffStep, hval]
      simp [grantOnStep, hoff, hval]

/-! ### Active grants over a trace -/

/-- No successful `RevokeSpender` of the pair `(o, s)` occurs in `tr`. -/
def noRevoke (validate : String → Bool) (o s : Addr) (tr : List Step) : Prop :=
  ∀ step ∈ tr, grantOffStep validate o s step = false

/-- A currently-active grant, in the words of the spec: some prior
successful `AuthorizeSpender(o → s)` was executed and no later
`RevokeSpender(o → s)` followed it. -/
def activeGrant (validate : String → Bool) (o s : Addr) (tr : List Step) : Prop :=
  ∃ pre step post, tr = pre ++ step :: post ∧
    grantOnStep validate o s step = true ∧ noRevoke validate o s post

theorem noRevoke_nil (validate : String → Bool) (o s : Addr) :
    noRevoke validate o s [] := by
  intro step h
  simp at h

theorem noRevoke_cons (validate : String → Bool) (o s : Addr) (step : Step) (tr : List Step) :
    noRevoke validate o s (step :: tr) ↔
      grantOffStep validate o s step = false ∧ noRevoke validate o s tr := by
  constructor
  · intro h
    exact ⟨h step (List.mem_cons_self step tr), fun e he => h e (List.mem_cons_of_mem step he)⟩
  · rintro ⟨h1, h2⟩ e he
    rcases List.mem_cons.mp he with rfl | he2
    · exact h1
    · exact h2 e he2

theorem activeGrant_nil (validate : String → Bool) (o s : Addr) :
    ¬ activeGrant validate o s [] := by
  rintro ⟨pre, step, post, h, _, _⟩
  have := congrArg List.length h
  simp at this
  omega

theorem activeGrant_cons (validate : String → Bool) (o s : Addr) (step : Step) (tr : List Step) :
    activeGrant validate o s (step :: tr) ↔
      (grantOnStep validate o s step = true ∧ noRevoke validate o s tr) ∨
        activeGrant validate o s tr := by
  constructor
  · rintro ⟨pre, e, post, heq, hon, hnr⟩
    cases pre with
    | nil =>
      simp only [List.nil_append, List.cons.injEq] at heq
      obtain ⟨rfl, rfl⟩ := heq
      exact .inl ⟨hon, hnr⟩
    | cons p pre2 =>
      simp only [List.cons_append, List.cons.injEq] at heq
      obtain ⟨rfl, heq2⟩ := heq
      exact .inr ⟨pre2, e, post, heq2, hon, hnr⟩
  · rintro (⟨hon, hnr⟩ | ⟨pre, e, post, heq, hon, hnr⟩)
    · exact ⟨[], step, tr, rfl, hon, hnr⟩
    · exact ⟨step :: pre, e, post, by simp [heq], hon, hnr⟩

/-- The stored grant flag after a trace equals "some authorize with no
later revoke, or the flag already held initially and was never revoked". -/
theorem grantOf_runFrom (validate : String → Bool) (o s : Addr) :
    ∀ (tr : List Step) (st0 : Storage),
      (grantOf (runFrom validate st0 tr) o s = true ↔
        (activeGrant validate o s tr ∨
          (grantOf st0 o s = true ∧ noRevoke validate o s tr))) := by
  intro tr
  induction tr with
  | nil =>
    intro st0
    simp [runFrom, activeGrant_nil, noRevoke_nil]
  | cons step tr ih =>
    intro st0
    have hrun : runFrom validate st0 (step :: tr) =
        runFrom validate (applyStep validate st0 step).1 tr := by
      simp [runFrom]
    rw [hrun, ih, activeGrant_cons, noRevoke_cons]
    have hstep := grantOf_applyStep validate st0 o s step
    by_cases hon : grantOnStep validate o s step = true
    · rw [hon] at hstep
      simp only [if_true] at hstep
      rw [hstep]
      tauto
    · simp only [Bool.not_eq_true] at hon
      rw [hon] at hstep
      simp only [Bool.false_eq_true, if_false] at hstep
      by_cases hoff : grantOffStep validate o s step = true
      · rw [hoff] at hstep
        simp only [if_true] at hstep
        rw [hstep]
        simp [hon, hoff]
      · simp only [Bool.not_eq_true] at hoff
        rw [hoff] at hstep
        simp only [Bool.false_eq_true, if_false] at hstep
        rw [hstep]
        simp only [hon, hoff, Bool.false_eq_true, false_and, false_or]
        tauto

/-! ### Conservation of value -/

/-- The amount credited by a step when it is a successful deposit.
A `Deposit` succeeds exactly when one coin is attached, and then credits
that coin's amount; every other step deposits nothing. -/
def depositAmt (step : Step) : Nat :=
  match step.2 with
  | .Deposit =>
    match step.1.funds with
    | [c] => c.amount
    | _ => 0
  | _ => 0

/-- Total amount of all successful deposits in a trace. -/
def depositsSum : List Step → Nat
  | [] => 0
  | step :: tr => depositAmt step + depositsSum tr

/-- A `Deposit` step succeeds iff exactly one coin is attached. -/
theorem execute_deposit_ok_iff (st : Storage) (info : MessageInfo) :
    exOk (execute_deposit st info) = true ↔ info.funds.length = 1 := by
  rcases hf : info.funds with _ | ⟨c, _ | ⟨d, t⟩⟩
  · rw [deposit_err st info (by simp [hf])]
    simp [exOk, hf]
  · rw [deposit_ok st info c hf]
    simp [exOk, hf]
  · rw [deposit_err st info (by simp [hf])]
    simp [exOk, hf]

/-- One step changes the total of all balances by at most the deposited
amount, and by exactly the deposited amount modulo `2 ^ 128`. -/
theorem asum_applyStep (validate : String → Bool) (st : Storage) (step : Step) :
    asum ((applyStep validate st step).1).balances ≤ asum st.balances + depositAmt step ∧
      asum ((applyStep validate st step).1).balances % U128LIM =
        (asum st.balances + depositAmt step) % U128LIM := by
  obtain ⟨info, msg⟩ := step
  cases msg with
  | AuthorizeSpender sp =>
    rw [applyStep_authorize]
    have : depositAmt (info, .AuthorizeSpender sp) = 0 := rfl
    rw [this]
    split <;> simp
  | RevokeSpender sp =>
    rw [applyStep_revoke]
    have : depositAmt (info, .RevokeSpender sp) = 0 := rfl
    rw [this]
    split <;> simp
  | Deposit =>
    rcases hf : info.funds with _ | ⟨c, _ | ⟨d, t⟩⟩
    · have h := deposit_err st info (by simp [hf])
      have hd : depositAmt (info, .Deposit) = 0 := by simp [depositAmt, hf]
      simp [applyStep, execute, h, hd]
    · have h := deposit_ok st info c hf
      have hd : depositAmt (info, .Deposit) = c.amount := by simp [depositAmt, hf]
      have hsum := asum_aset st.balances info.sender (wrap (balOf st info.sender + c.amount))
      simp only [applyStep, execute, h, hd, balOf] at *
      simp only [wrap, U128LIM] at *
      constructor <;> omega
    · have h := deposit_err st info (by simp [hf])
      have hd : depositAmt (info, .Deposit) = 0 := by simp [depositAmt, hf]
      simp [applyStep, execute, h, hd]
  | SpendFrom owner amount =>
    have hd : depositAmt (info, .SpendFrom owner amount) = 0 := rfl
    rw [hd]
    rcases applyStep_spend validate st info owner amount with h | ⟨_, _, hge, h⟩
    · simp [h]
    · rw [h]
      simp only [spendState]
      have h1 := asum_aset st.balances owner (balOf st owner - amount)
      have h2 := asum_aset (aset st.balances owner (balOf st owner - amount)) info.sender
        (wrap ((alookup (aset st.balances owner (balOf st owner - amount)) info.sender).getD 0
          + amount))
      simp only [balOf] at *
      simp only [wrap, U128LIM] at *
      constructor <;> omega

/-- Trace version: the total of all balances never exceeds the total
deposited, and matches it modulo `2 ^ 128`. -/
theorem asum_runFrom (validate : String → Bool) :
    ∀ (tr : List Step) (st0 : Storage),
      asum (runFrom validate st0 tr).balances ≤ asum st0.balances + depositsSum tr ∧
        asum (runFrom validate st0 tr).balances % U128LIM =
          (asum st0.balances + depositsSum tr) % U128LIM := by
  intro tr
  induction tr with
  | nil =>
    intro st0
    simp [runFrom, depositsSum]
  | cons step tr ih =>
    intro st0
    have hrun : runFrom validate st0 (step :: tr) =
        runFrom validate (applyStep validate st0 step).1 tr := by
      simp [runFrom]
    rw [hrun]
    have hstep := asum_applyStep validate st0 step
    have htr := ih (applyStep validate st0 step).1
    have hds : depositsSum (step :: tr) = depositAmt step + depositsSum tr := rfl
    rw [hds]
    obtain ⟨hle1, hmod1⟩ := hstep
    obtain ⟨hle2, hmod2⟩ := htr
    constructor
    · omega
    · simp only [U128LIM] at *
      omega

/-! ### Claim theorems -/

/-- C1: for every caller and owner with caller ≠ owner, starting from the
freshly instantiated contract, a `SpendFrom` by the caller on the owner
succeeds if and only if a currently-active grant exists at the time of the
call — a prior successful `AuthorizeSpender(owner → caller)` with no later
`RevokeSpender(owner → caller)` — assuming the owner string validates and
the owner's balance covers the amount; with no active grant it fails with
`Unauthorized`. -/
theorem C1_authorization_gate (validate : String → Bool) (admin denom : String)
    (tr : List Step) (info : MessageInfo) (owner : String) (amount : Nat)
    (hne : info.sender ≠ owner)
    (hv : validate owner = true)
    (hbal : amount ≤ balOf (run validate admin denom tr) owner) :
    (exOk (execute_spend_from validate (run validate admin denom tr) info owner amount) = true ↔
      activeGrant validate owner info.sender tr) ∧
    (¬ activeGrant validate owner info.sender tr →
      execute_spend_from validate (run validate admin denom tr) info owner amount =
        .error .Unauthorized) := by
  have hinit : grantOf (initStorage admin denom) owner info.sender = false := rfl
  have hgr := grantOf_runFrom validate owner info.sender tr (initStorage admin denom)
  rw [hinit] at hgr
  simp only [Bool.false_eq_true, false_and, or_false] at hgr
  have hrun : run validate admin denom tr = runFrom validate (initStorage admin denom) tr := rfl
  by_cases hg : grantOf (run validate admin denom tr) owner info.sender = true
  · have hact : activeGrant validate owner info.sender tr := by
      rw [hrun] at hg
      exact hgr.mp hg
    have hok := spend_from_ok validate (run validate admin denom tr) info owner amount hv
      (.inr hg) hbal
    constructor
    · rw [hok]
      simp [exOk, hact]
    · intro hna
      exact absurd hact hna
  · have hg2 : grantOf (run validate admin denom tr) owner info.sender = false := by
      cases h2 : grantOf (run validate admin denom tr) owner info.sender
      · rfl
      · exact absurd h2 hg
    have hna : ¬ activeGrant validate owner info.sender tr := by
      intro hact
      rw [hrun] at hg
      exact hg (hgr.mpr hact)
    have herr := spend_from_unauthorized validate (run validate admin denom tr) info owner
      amount hv hne hg2
    constructor
    · rw [herr]
      simp [exOk, hna]
    · intro _
      exact herr

/-- Witness for C1: after `alice` authorizes `bob`, a `SpendFrom` by `bob`
on `alice` (amount 0) succeeds, matching the active grant. -/
theorem C1_authorization_gate_witness :
    (exOk (execute_spend_from (fun _ => true)
        (run (fun _ => true) "adm" "x" [(⟨"alice", []⟩, .AuthorizeSpender "bob")])
        ⟨"bob", []⟩ "alice" 0) = true ↔
      activeGrant (fun _ => true) "alice" "bob" [(⟨"alice", []⟩, .AuthorizeSpender "bob")]) ∧
    (¬ activeGrant (fun _ => true) "alice" "bob" [(⟨"alice", []⟩, .AuthorizeSpender "bob")] →
      execute_spend_from (fun _ => true)
        (run (fun _ => true) "adm" "x" [(⟨"alice", []⟩, .AuthorizeSpender "bob")])
        ⟨"bob", []⟩ "alice" 0 = .error .Unauthorized) :=
  C1_authorization_gate (fun _ => true) "adm" "x" [(⟨"alice", []⟩, .AuthorizeSpender "bob")]
    ⟨"bob", []⟩ "alice" 0 (by decide) rfl (Nat.zero_le _)

/-- C2 (counterexample): two deposits of `2 ^ 128 - 1` each wrap the
`u128` balance, so the final total of balances (`2 ^ 128 - 2`) differs
from the total of successful deposit amounts (`2 ^ 129 - 2`). -/
theorem C2_conservation_counterexample :
    asum (run (fun _ => true) "adm" "x"
        [(⟨"a", [⟨"x", 2 ^ 128 - 1⟩]⟩, .Deposit), (⟨"a", [⟨"x", 2 ^ 128 - 1⟩]⟩, .Deposit)]).balances ≠
      depositsSum
        [(⟨"a", [⟨"x", 2 ^ 128 - 1⟩]⟩, .Deposit), (⟨"a", [⟨"x", 2 ^ 128 - 1⟩]⟩, .Deposit)] := by
  decide

/-- C2 (amended): for every sequence of operations from the initial empty
state, the sum of all stored balances equals the sum of all successful
deposit amounts, provided that total stays below `2 ^ 128` (no `u128`
addition overflows); in general the two sums agree modulo `2 ^ 128`. -/
theorem C2_conservation (validate : String → Bool) (admin denom : String) (tr : List Step)
    (hov : depositsSum tr < U128LIM) :
    asum (run validate admin denom tr).balances = depositsSum tr := by
  have h := asum_runFrom validate tr (initStorage admin denom)
  have hinit : asum (initStorage admin denom).balances = 0 := rfl
  rw [hinit] at h
  obtain ⟨hle, hmod⟩ := h
  have hrun : run validate admin denom tr = runFrom validate (initStorage admin denom) tr := rfl
  rw [hrun]
  simp only [U128LIM] at hov hmod
  omega

/-- Witness for C2: a single deposit of 5 yields total balances 5. -/
theorem C2_conservation_witness :
    depositsSum [(⟨"a", [⟨"x", 5⟩]⟩, .Deposit)] < U128LIM ∧
      asum (run (fun _ => true) "adm" "x" [(⟨"a", [⟨"x", 5⟩]⟩, .Deposit)]).balances =
        depositsSum [(⟨"a", [⟨"x", 5⟩]⟩, .Deposit)] :=
  ⟨by decide, C2_conservation (fun _ => true) "adm" "x" [(⟨"a", [⟨"x", 5⟩]⟩, .Deposit)] (by decide)⟩

/-- C3 (code bug): the deposit path never reads the configured
denomination. On a contract instantiated with accepted denomination
`uatom`, a deposit of 300 `usdt` is accepted and credited instead of
failing with `InvalidFunds`, contradicting the repository's own
`test_deposit_validation` integration test. -/
theorem C3_wrong_denom_deposit_accepted :
    (initStorage "admin" "uatom").denom = "uatom" ∧
      execute_deposit (initStorage "admin" "uatom") ⟨"user1", [⟨"usdt", 300⟩]⟩ =
        .ok (⟨"admin", "uatom", [("user1", 300)], []⟩,
             [("action", "deposit"), ("from", "user1")]) := by
  constructor
  · rfl
  · rfl

/-- C4: the `SpendFrom` preconditions are evaluated in a fixed order with
the first failure winning: invalid owner address (`InvalidAddress`, the
address-validation `StdError`), then authorization (`Unauthorized`), then
sufficiency (`InsufficientBalance`, the generic `StdError`); when all
three hold the call succeeds. -/
theorem C4_spend_from_precondition_order (validate : String → Bool) (st : Storage)
    (info : MessageInfo) (owner : String) (amount : Nat) :
    (validate owner = false →
      execute_spend_from validate st info owner amount = .error (.Std (.invalidAddr owner))) ∧
    (validate owner = true → info.sender ≠ owner → grantOf st owner info.sender = false →
      execute_spend_from validate st info owner amount = .error .Unauthorized) ∧
    (validate owner = true → (info.sender = owner ∨ grantOf st owner info.sender = true) →
      balOf st owner < amount →
      execute_spend_from validate st info owner amount =
        .error (.Std (.genericErr "Insufficient balance"))) ∧
    (validate owner = true → (info.sender = owner ∨ grantOf st owner info.sender = true) →
      amount ≤ balOf st owner →
      exOk (execute_spend_from validate st info owner amount) = true) := by
  refine ⟨?_, ?_, ?_, ?_⟩
  · intro h
    exact spend_from_invalid validate st info owner amount h
  · intro hv hno hg
    exact spend_from_unauthorized validate st info owner amount hv hno hg
  · intro hv hauth hlt
    exact spend_from_insufficient validate st info owner amount hv hauth hlt
  · intro hv hauth hge
    rw [spend_from_ok validate st info owner amount hv hauth hge]
    rfl

/-- Witness for C4: each of the four branches at concrete inputs, over a
state with `balance[o] = 5` and an active grant `(o, s)`. -/
theorem C4_spend_from_precondition_order_witness :
    execute_spend_from (fun a => decide (a ≠ "bad")) ⟨"adm", "x", [("o", 5)], [(("o", "s"), true)]⟩
        ⟨"s", []⟩ "bad" 1 = .error (.Std (.invalidAddr "bad")) ∧
    execute_spend_from (fun a => decide (a ≠ "bad")) ⟨"adm", "x", [("o", 5)], [(("o", "s"), true)]⟩
        ⟨"z", []⟩ "o" 1 = .error .Unauthorized ∧
    execute_spend_from (fun a => decide (a ≠ "bad")) ⟨"adm", "x", [("o", 5)], [(("o", "s"), true)]⟩
        ⟨"s", []⟩ "o" 9 = .error (.Std (.genericErr "Insufficient balance")) ∧
    exOk (execute_spend_from (fun a => decide (a ≠ "bad"))
        ⟨"adm", "x", [("o", 5)], [(("o", "s"), true)]⟩ ⟨"s", []⟩ "o" 3) = true :=
  ⟨(C4_spend_from_precondition_order (fun a => decide (a ≠ "bad"))
      ⟨"adm", "x", [("o", 5)], [(("o", "s"), true)]⟩ ⟨"s", []⟩ "bad" 1).1 (by decide),
   (C4_spend_from_precondition_order (fun a => decide (a ≠ "bad"))
      ⟨"adm", "x", [("o", 5)], [(("o", "s"), true)]⟩ ⟨"z", []⟩ "o" 1).2.1 rfl
      (by decide) rfl,
   (C4_spend_from_precondition_order (fun a => decide (a ≠ "bad"))
      ⟨"adm", "x", [("o", 5)], [(("o", "s"), true)]⟩ ⟨"s", []⟩ "o" 9).2.2.1 rfl
      (.inr rfl) (by decide),
   (C4_spend_from_precondition_order (fun a => decide (a ≠ "bad"))
      ⟨"adm", "x", [("o", 5)], [(("o", "s"), true)]⟩ ⟨"s", []⟩ "o" 3).2.2.2 rfl
      (.inr rfl) (by decide)⟩

/-- C5: a failed `SpendFrom` (for any error: invalid address, unauthorized
or insufficient balance) leaves the whole storage — in particular every
balance and every grant entry — exactly as before the call. -/
theorem C5_spend_from_atomic_failure (validate : String → Bool) (st : Storage)
    (info : MessageInfo) (owner : String) (amount : Nat) (e : ContractError)
    (h : execute_spend_from validate st info owner amount = .error e) :
    (applyStep validate st (info, .SpendFrom owner amount)).1 = st := by
  simp [applyStep, execute, h]

/-- Witness for C5: an unauthorized `SpendFrom` leaves the state intact. -/
theorem C5_spend_from_atomic_failure_witness :
    (applyStep (fun _ => true) ⟨"adm", "x", [("a", 5)], []⟩
      (⟨"b", []⟩, .SpendFrom "a" 1)).1 = ⟨"adm", "x", [("a", 5)], []⟩ :=
  C5_spend_from_atomic_failure (fun _ => true) ⟨"adm", "x", [("a", 5)], []⟩
    ⟨"b", []⟩ "a" 1 .Unauthorized rfl

/-- C6: a self-spend with sufficient balance succeeds and leaves the
caller's balance unchanged (debit and credit of the same account cancel),
while an amount above the balance still fails the sufficiency check. -/
theorem C6_self_spend_noop (validate : String → Bool) (st : Storage)
    (info : MessageInfo) (amount : Nat)
    (hv : validate info.sender = true)
    (hlim : balOf st info.sender < U128LIM) :
    (amount ≤ balOf st info.sender →
      exOk (execute_spend_from validate st info info.sender amount) = true ∧
      balOf (applyStep validate st (info, .SpendFrom info.sender amount)).1 info.sender =
        balOf st info.sender) ∧
    (balOf st info.sender < amount →
      execute_spend_from validate st info info.sender amount =
        .error (.Std (.genericErr "Insufficient balance"))) := by
  constructor
  · intro hge
    have hok := spend_from_ok validate st info info.sender amount hv (.inl rfl) hge
    constructor
    · rw [hok]
      rfl
    · have hstep : (applyStep validate st (info, .SpendFrom info.sender amount)).1 =
          spendState st info.sender info.sender amount := by
        simp [applyStep, execute, hok]
      rw [hstep]
      simp only [spendState, balOf, alookup_aset_self, Option.getD_some]
      simp only [wrap, U128LIM, balOf] at *
      omega
  · intro hlt
    exact spend_from_insufficient validate st info info.sender amount hv (.inl rfl) hlt

/-- Witness for C6: a self-spend of 3 out of 5 succeeds and the balance
stays 5; a self-spend of 9 out of 5 fails with the insufficiency error. -/
theorem C6_self_spend_noop_witness :
    (3 ≤ balOf ⟨"adm", "x", [("a", 5)], []⟩ "a" →
      exOk (execute_spend_from (fun _ => true) ⟨"adm", "x", [("a", 5)], []⟩ ⟨"a", []⟩ "a" 3) = true ∧
      balOf (applyStep (fun _ => true) ⟨"adm", "x", [("a", 5)], []⟩
        (⟨"a", []⟩, .SpendFrom "a" 3)).1 "a" = balOf ⟨"adm", "x", [("a", 5)], []⟩ "a") ∧
    (balOf ⟨"adm", "x", [("a", 5)], []⟩ "a" < 3 →
      execute_spend_from (fun _ => true) ⟨"adm", "x", [("a", 5)], []⟩ ⟨"a", []⟩ "a" 3 =
        .error (.Std (.genericErr "Insufficient balance"))) :=
  C6_self_spend_noop (fun _ => true) ⟨"adm", "x", [("a", 5)], []⟩ ⟨"a", []⟩ 3 rfl (by decide)

/-- C7: revoking (also of a never-granted or already-revoked spender)
always succeeds; afterwards `IsAuthorized` reports `false`, and a second
identical revoke produces exactly the same state and response. -/
theorem C7_revoke_idempotent (validate : String → Bool) (st : Storage)
    (info : MessageInfo) (spender : String)
    (hs : validate spender = true) (ho : validate info.sender = true) :
    ∃ st2 r, execute_revoke_spender validate st info spender = .ok (st2, r) ∧
      query_is_authorized validate st2 info.sender spender = .ok false ∧
      execute_revoke_spender validate st2 info spender = .ok (st2, r) := by
  refine ⟨{ st with grants := aremove st.grants (info.sender, spender) },
    [("action", "revoke_spender"), ("owner", info.sender), ("spender", spender)],
    revoke_ok validate st info spender hs, ?_, ?_⟩
  · simp [query_is_authorized, addr_validate, hs, ho, Except.bind, bind, pure, Except.pure,
      alookup_aremove_self]
  · rw [revoke_ok validate _ info spender hs]
    simp [aremove_idem]

/-- Witness for C7: revoking a never-granted spender on the empty state. -/
theorem C7_revoke_idempotent_witness :
    ∃ st2 r, execute_revoke_spender (fun _ => true) ⟨"adm", "x", [], []⟩ ⟨"a", []⟩ "b" =
        .ok (st2, r) ∧
      query_is_authorized (fun _ => true) st2 "a" "b" = .ok false ∧
      execute_revoke_spender (fun _ => true) st2 ⟨"a", []⟩ "b" = .ok (st2, r) :=
  C7_revoke_idempotent (fun _ => true) ⟨"adm", "x", [], []⟩ ⟨"a", []⟩ "b" rfl rfl

/-- C8 (counterexample): a reachable state stores an explicit zero
balance entry. Deposit 5 as `a`, authorize `b`, let `b` spend all 5:
the owner's key stays in the balance map with stored value 0. -/
theorem C8_zero_balance_stored_counterexample :
    alookup (run (fun _ => true) "adm" "x"
        [(⟨"a", [⟨"x", 5⟩]⟩, .Deposit),
         (⟨"a", []⟩, .AuthorizeSpender "b"),
         (⟨"b", []⟩, .SpendFrom "a" 5)]).balances "a" = some 0 := by
  decide

/-- C8 (amended): a zero balance MAY be stored (the debit write of
`SpendFrom` keeps the key even when the new value is 0), but a stored
zero and an absent key are observationally indistinguishable: `GetBalance`
returns 0 in both cases. -/
theorem C8_zero_balance_reads_as_absent (validate : String → Bool) (st : Storage)
    (a : String) (hv : validate a = true)
    (h : alookup st.balances a = none ∨ alookup st.balances a = some 0) :
    query_balance validate st a = .ok 0 := by
  rcases h with h | h <;>
    simp [query_balance, addr_validate, hv, h, Except.bind, bind, pure, Except.pure]

/-- Witness for C8: a state holding the explicit entry `("a", 0)` reads
as balance 0. -/
theorem C8_zero_balance_reads_as_absent_witness :
    query_balance (fun _ => true) ⟨"adm", "x", [("a", 0)], []⟩ "a" = .ok 0 :=
  C8_zero_balance_reads_as_absent (fun _ => true) ⟨"adm", "x", [("a", 0)], []⟩ "a" rfl
    (.inr rfl)

/-- C9: the `prev + amount` additions in `execute_deposit` and in the
credit step of `execute_spend_from` are unchecked `u128` additions: when
the mathematical sum reaches `2 ^ 128` the operation still succeeds (no
typed error) and the stored balance is the wrapped value
`(prev + amount) % 2 ^ 128`, which differs from the true sum. -/
theorem C9_unchecked_add_overflow (validate : String → Bool) (st : Storage)
    (info : MessageInfo) (c : Coin) (owner : String) (amount : Nat) :
    (info.funds = [c] → U128LIM ≤ balOf st info.sender + c.amount →
      execute_deposit st info =
        .ok ({ st with
                 balances := aset st.balances info.sender
                               ((balOf st info.sender + c.amount) % U128LIM) },
             [("action", "deposit"), ("from", info.sender)]) ∧
      (balOf st info.sender + c.amount) % U128LIM ≠ balOf st info.sender + c.amount) ∧
    (validate owner = true → info.sender ≠ owner → grantOf st owner info.sender = true →
      amount ≤ balOf st owner → U128LIM ≤ balOf st info.sender + amount →
      exOk (execute_spend_from validate st info owner amount) = true ∧
      balOf (applyStep validate st (info, .SpendFrom owner amount)).1 info.sender =
        (balOf st info.sender + amount) % U128LIM ∧
      (balOf st info.sender + amount) % U128LIM ≠ balOf st info.sender + amount) := by
  constructor
  · intro hf hov
    constructor
    · rw [deposit_ok st info c hf]
      rfl
    · have hpos : 0 < U128LIM := by
        simp [U128LIM]
      have := Nat.mod_lt (balOf st info.sender + c.amount) hpos
      omega
  · intro hv hne hg hge hov
    have hok := spend_from_ok validate st info owner amount hv (.inr hg) hge
    have hstep : (applyStep validate st (info, .SpendFrom owner amount)).1 =
        spendState st info.sender owner amount := by
      simp [applyStep, execute, hok]
    have hpos : 0 < U128LIM := by
      simp [U128LIM]
    have hmod := Nat.mod_lt (balOf st info.sender + amount) hpos
    refine ⟨by rw [hok]; rfl, ?_, by omega⟩
    rw [hstep]
    simp only [spendState, balOf]
    rw [alookup_aset_self]
    simp only [Option.getD_some]
    rw [alookup_aset_ne st.balances owner info.sender
      ((alookup st.balances owner).getD 0 - amount) hne]
    rfl

/-- Witness for C9: a deposit of 1 onto a balance of `2 ^ 128 - 1`
succeeds and wraps, and so does the credit step of a delegated spend onto
a spender balance of `2 ^ 128 - 1`. -/
theorem C9_unchecked_add_overflow_witness :
    exOk (execute_deposit ⟨"adm", "x", [("a", 2 ^ 128 - 1)], []⟩ ⟨"a", [⟨"x", 1⟩]⟩) = true ∧
    (balOf ⟨"adm", "x", [("a", 2 ^ 128 - 1)], []⟩ "a" + 1) % U128LIM ≠
      balOf ⟨"adm", "x", [("a", 2 ^ 128 - 1)], []⟩ "a" + 1 ∧
    balOf (applyStep (fun _ => true)
        ⟨"adm", "x", [("o", 1), ("s", 2 ^ 128 - 1)], [(("o", "s"), true)]⟩
        (⟨"s", []⟩, .SpendFrom "o" 1)).1 "s" =
      (balOf ⟨"adm", "x", [("o", 1), ("s", 2 ^ 128 - 1)], [(("o", "s"), true)]⟩ "s" + 1) % U128LIM := by
  have h1 := (C9_unchecked_add_overflow (fun _ => true)
    ⟨"adm", "x", [("a", 2 ^ 128 - 1)], []⟩ ⟨"a", [⟨"x", 1⟩]⟩ ⟨"x", 1⟩ "o" 0).1 rfl (by decide)
  have h2 := (C9_unchecked_add_overflow (fun _ => true)
    ⟨"adm", "x", [("o", 1), ("s", 2 ^ 128 - 1)], [(("o", "s"), true)]⟩ ⟨"s", []⟩ ⟨"x", 1⟩
    "o" 1).2 rfl (by decide) rfl (by decide) (by decide)
  exact ⟨by rw [h1.1]; rfl, h1.2, h2.2.1⟩

/-- C10: `AuthorizeSpender` and `RevokeSpender` leave every balance
unchanged and touch no grant entry other than `(caller, spender)`;
`Deposit` leaves every grant unchanged and touches no balance other than
the caller's own. -/
theorem C10_frame_conditions (validate : String → Bool) (st : Storage) (info : MessageInfo)
    (sp : String) (p : Addr × Addr) (a : Addr) :
    (((applyStep validate st (info, .AuthorizeSpender sp)).1).balances = st.balances ∧
      (p ≠ (info.sender, sp) →
        alookup ((applyStep validate st (info, .AuthorizeSpender sp)).1).grants p =
          alookup st.grants p)) ∧
    (((applyStep validate st (info, .RevokeSpender sp)).1).balances = st.balances ∧
      (p ≠ (info.sender, sp) →
        alookup ((applyStep validate st (info, .RevokeSpender sp)).1).grants p =
          alookup st.grants p)) ∧
    (((applyStep validate st (info, .Deposit)).1).grants = st.grants ∧
      (a ≠ info.sender →
        alookup ((applyStep validate st (info, .Deposit)).1).balances a =
          alookup st.balances a)) := by
  refine ⟨⟨?_, ?_⟩, ⟨?_, ?_⟩, ?_, ?_⟩
  · rw [applyStep_authorize]
    split <;> rfl
  · intro hp
    rw [applyStep_authorize]
    split
    · exact alookup_aset_ne st.grants (info.sender, sp) p true hp
    · rfl
  · rw [applyStep_revoke]
    split <;> rfl
  · intro hp
    rw [applyStep_revoke]
    split
    · exact alookup_aremove_ne st.grants (info.sender, sp) p hp
    · rfl
  · exact applyStep_grants_deposit_spend validate st (info, .Deposit) (.inl ⟨info, rfl⟩)
  · intro ha
    rcases applyStep_deposit validate st info with h | ⟨c, _, h⟩
    · rw [h]
    · rw [h]
      exact alookup_aset_ne st.balances info.sender a _ ha

/-- Witness for C10: concrete frame facts over a one-entry state with one
grant, pair `("u", "v")` and account `"z"` unrelated to the operations. -/
theorem C10_frame_conditions_witness :
    ((applyStep (fun _ => true) ⟨"adm", "x", [("u", 7)], [(("u", "v"), true)]⟩
        (⟨"u", [⟨"x", 2⟩]⟩, .AuthorizeSpender "w")).1).balances =
      (⟨"adm", "x", [("u", 7)], [(("u", "v"), true)]⟩ : Storage).balances ∧
    alookup ((applyStep (fun _ => true) ⟨"adm", "x", [("u", 7)], [(("u", "v"), true)]⟩
        (⟨"u", [⟨"x", 2⟩]⟩, .AuthorizeSpender "w")).1).grants ("u", "v") =
      alookup (⟨"adm", "x", [("u", 7)], [(("u", "v"), true)]⟩ : Storage).grants ("u", "v") ∧
    alookup ((applyStep (fun _ => true) ⟨"adm", "x", [("u", 7)], [(("u", "v"), true)]⟩
        (⟨"u", [⟨"x", 2⟩]⟩, .RevokeSpender "w")).1).grants ("u", "v") =
      alookup (⟨"adm", "x", [("u", 7)], [(("u", "v"), true)]⟩ : Storage).grants ("u", "v") ∧
    ((applyStep (fun _ => true) ⟨"adm", "x", [("u", 7)], [(("u", "v"), true)]⟩
        (⟨"u", [⟨"x", 2⟩]⟩, .Deposit)).1).grants =
      (⟨"adm", "x", [("u", 7)], [(("u", "v"), true)]⟩ : Storage).grants ∧
    alookup ((applyStep (fun _ => true) ⟨"adm", "x", [("u", 7)], [(("u", "v"), true)]⟩
        (⟨"u", [⟨"x", 2⟩]⟩, .Deposit)).1).balances "z" =
      alookup (⟨"adm", "x", [("u", 7)], [(("u", "v"), true)]⟩ : Storage).balances "z" :=
  ⟨(C10_frame_conditions (fun _ => true) ⟨"adm", "x", [("u", 7)], [(("u", "v"), true)]⟩
      ⟨"u", [⟨"x", 2⟩]⟩ "w" ("u", "v") "z").1.1,
   (C10_frame_conditions (fun _ => true) ⟨"adm", "x", [("u", 7)], [(("u", "v"), true)]⟩
      ⟨"u", [⟨"x", 2⟩]⟩ "w" ("u", "v") "z").1.2 (by decide),
   (C10_frame_conditions (fun _ => true) ⟨"adm", "x", [("u", 7)], [(("u", "v"), true)]⟩
      ⟨"u", [⟨"x", 2⟩]⟩ "w" ("u", "v") "z").2.1.2 (by decide),
   (C10_frame_conditions (fun _ => true) ⟨"adm", "x", [("u", 7)], [(("u", "v"), true)]⟩
      ⟨"u", [⟨"x", 2⟩]⟩ "w" ("u", "v") "z").2.2.1,
   (C10_frame_conditions (fun _ => true) ⟨"adm", "x", [("u", 7)], [(("u", "v"), true)]⟩
      ⟨"u", [⟨"x", 2⟩]⟩ "w" ("u", "v") "z").2.2.2 (by decide)⟩

end CreditsDelegation
